import Mathlib

/-!
Verification of the MusicWheel music-theory engine (a p5.js port of the
Processing "Interval" note-wheel).  The definitions below are a shallow
embedding of the JavaScript source:

* `src/p5js/js/MusicMaker.js` — the theory engine (note tables, scales,
  modes, chord catalog, chord detection, chord progressions);
* `src/p5js/js/sketch.js` — the `SequencePlayer` (compact sequence
  parsing, note resolution, timer-driven playback).

JavaScript objects used as string-keyed dictionaries are embedded as
association lists in insertion order and read with `List.lookup`; a
failed property lookup (JavaScript `undefined`) is `Option.none`.
Functions that can throw a `TypeError` at runtime return `Except String`.
-/

namespace MusicWheel

/-- Helper: looking up a key that is not among an association list's keys
yields `none` (the JavaScript `undefined`). -/
theorem lookup_eq_none_of_not_mem_keys {α β : Type} [BEq α] [LawfulBEq α]
    (l : List (α × β)) (a : α) (h : a ∉ l.map Prod.fst) :
    List.lookup a l = none := by
  induction l with
  | nil => rfl
  | cons p t ih =>
    obtain ⟨k, v⟩ := p
    simp only [List.map_cons, List.mem_cons, not_or] at h
    have hbeq : (a == k) = false := by simp [h.1]
    simp only [List.lookup, hbeq]
    exact ih h.2

/-- Embeds `MusicMaker.setupNotesToNumbers` (MusicMaker.js): the fixed
note-name → pitch-class-index table. -/
def notesToNumbers : List (String × Nat) :=
  [("A", 0), ("A#", 1), ("B", 2), ("C", 3), ("C#", 4), ("D", 5),
   ("D#", 6), ("E", 7), ("F", 8), ("F#", 9), ("G", 10), ("G#", 11)]

/-- Embeds `MusicMaker.setupNumbersToNotes`: the fixed pitch-class-index →
note-name table. -/
def numbersToNotes : List (Nat × String) :=
  [(0, "A"), (1, "A#"), (2, "B"), (3, "C"), (4, "C#"), (5, "D"),
   (6, "D#"), (7, "E"), (8, "F"), (9, "F#"), (10, "G"), (11, "G#")]

/-- Embeds `MusicMaker.setupFifths`: the fixed perfect-fifth adjacency. -/
def fifths : List (String × String) :=
  [("A", "E"), ("E", "B"), ("B", "F#"), ("F#", "C#"), ("C#", "G#"),
   ("G#", "D#"), ("D#", "A#"), ("A#", "F"), ("F", "C"), ("C", "G"),
   ("G", "D"), ("D", "A")]

/-- The 12 note names (the key set of the tables; also the literal
`noteNames` list in SoundManager.js). -/
def noteNames : List String :=
  ["A", "A#", "B", "C", "C#", "D", "D#", "E", "F", "F#", "G", "G#"]

/-- Embeds `MusicMaker.getNoteNameFromNum`: dictionary lookup, `undefined`
(= `none`) outside 0..11. -/
def getNoteNameFromNum (theNum : Nat) : Option String :=
  List.lookup theNum numbersToNotes

/-- Embeds `MusicMaker.getNumFromNoteName`: dictionary lookup, `undefined`
(= `none`) for an unknown name. -/
def getNumFromNoteName (name : String) : Option Nat :=
  List.lookup name notesToNumbers

/-- Embeds `MusicMaker.getFifth`. -/
def getFifth (note : String) : Option String :=
  List.lookup note fifths

/-- Embeds the loop of `MusicMaker.getFifthsFromCurrentRoot`, abstracted
over the current root: start with the root and push the registered fifth
of the previously added note 11 times.  A missing dictionary entry would
push JavaScript `undefined`, rendered here as the string sentinel
"undefined". -/
def fifthsFromRoot (root : String) : List String :=
  ((List.range 11).foldl
    (fun (acc : List String × String) _ =>
      let nxt := (List.lookup acc.2 fifths).getD "undefined"
      (acc.1 ++ [nxt], nxt))
    ([root], root)).1

/-- C8: the name→index and index→name mappings agree with the fixed
12-entry table on all valid inputs, and return no value (JavaScript
`undefined`, embedded as `none` — the `InvalidNote` failure of the spec)
for every name or index outside the table. -/
theorem c8_note_table_total_and_fails_outside :
    (∀ p ∈ ([("A", 0), ("A#", 1), ("B", 2), ("C", 3), ("C#", 4), ("D", 5),
             ("D#", 6), ("E", 7), ("F", 8), ("F#", 9), ("G", 10), ("G#", 11)] :
             List (String × Nat)),
       getNumFromNoteName p.1 = some p.2 ∧ getNoteNameFromNum p.2 = some p.1) ∧
    (∀ n : Nat, n ∉ ([0, 1, 2, 3, 4, 5, 6, 7, 8, 9, 10, 11] : List Nat) →
       getNoteNameFromNum n = none) ∧
    (∀ s : String, s ∉ noteNames → getNumFromNoteName s = none) := by
  refine ⟨by decide, ?_, ?_⟩
  · intro n hn
    have hkeys : numbersToNotes.map Prod.fst =
        ([0, 1, 2, 3, 4, 5, 6, 7, 8, 9, 10, 11] : List Nat) := by decide
    exact lookup_eq_none_of_not_mem_keys numbersToNotes n (by rw [hkeys]; exact hn)
  · intro s hs
    have hkeys : notesToNumbers.map Prod.fst = noteNames := by decide
    exact lookup_eq_none_of_not_mem_keys notesToNumbers s (by rw [hkeys]; exact hs)

/-- C8 witness: concrete instances of the three parts — the pair (A, 0)
round-trips, index 12 fails, and the name "H" fails. -/
theorem c8_witness :
    getNumFromNoteName "A" = some 0 ∧ getNoteNameFromNum 0 = some "A" ∧
    getNoteNameFromNum 12 = none ∧ getNumFromNoteName "H" = none := by
  obtain ⟨h1, h2, h3⟩ := c8_note_table_total_and_fails_outside
  exact ⟨(h1 ("A", 0) (by decide)).1, (h1 ("A", 0) (by decide)).2,
    h2 12 (by decide), h3 "H" (by decide)⟩

/-- C9: from every valid root, the fifths sequence has 12 entries, starts
at the root, follows the registered fifth adjacency step by step, has no
repeats, and visits every one of the 12 pitch-class names. -/
theorem c9_fifths_sequence_is_permutation :
    ∀ root, root ∈ noteNames →
      (fifthsFromRoot root).length = 12 ∧
      (fifthsFromRoot root).head? = some root ∧
      (∀ p ∈ (fifthsFromRoot root).zip (fifthsFromRoot root).tail,
         List.lookup p.1 fifths = some p.2) ∧
      (fifthsFromRoot root).Nodup ∧
      (∀ n ∈ noteNames, n ∈ fifthsFromRoot root) := by
  intro root hroot
  fin_cases hroot <;> exact ⟨by decide, by decide, by decide, by decide, by decide⟩

/-- C9 witness: the theorem instantiated at the root A. -/
theorem c9_witness :
    (fifthsFromRoot "A").length = 12 ∧
    (fifthsFromRoot "A").head? = some "A" ∧
    (∀ p ∈ (fifthsFromRoot "A").zip (fifthsFromRoot "A").tail,
       List.lookup p.1 fifths = some p.2) ∧
    (fifthsFromRoot "A").Nodup ∧
    (∀ n ∈ noteNames, n ∈ fifthsFromRoot "A") :=
  c9_fifths_sequence_is_permutation "A" (by decide)

/-- Embeds `MusicMaker.setupScaleTypesToPatterns`: scale and mode interval
patterns (MusicMaker.js). -/
def scaleTypesToPatterns : List (String × List Nat) :=
  [("Major", [0, 2, 4, 5, 7, 9, 11]),
   ("Minor", [0, 2, 3, 5, 7, 8, 10]),
   ("Minor Pent.", [0, 3, 5, 7, 10]),
   ("Major Pent.", [0, 2, 4, 7, 9]),
   ("Blues", [0, 3, 5, 6, 7, 10]),
   ("Ionian", [0, 2, 4, 5, 7, 9, 11]),
   ("Dorian", [0, 2, 3, 5, 7, 9, 10]),
   ("Phrygian", [0, 1, 3, 5, 7, 8, 10]),
   ("Lydian", [0, 2, 4, 6, 7, 9, 11]),
   ("Mixolydian", [0, 2, 4, 5, 7, 9, 10]),
   ("Aeolian", [0, 2, 3, 5, 7, 8, 10]),
   ("Locrian", [0, 1, 3, 5, 6, 8, 10])]

/-- Embeds `MusicMaker.modeParents`: semitone offset from a mode's root to
the root of its parent major scale. -/
def modeParents : List (String × Int) :=
  [("Ionian", 0), ("Dorian", -2), ("Phrygian", -4), ("Lydian", -5),
   ("Mixolydian", -7), ("Aeolian", -9), ("Locrian", -11)]

/-- Embeds `MusicMaker.setupChordsToNoteLists`: chord-suffix → interval
pattern, in source insertion order. -/
def chordTypesToNoteLists : List (String × List Nat) :=
  [("", [0, 4, 7]), ("7", [0, 4, 7, 10]), ("M7", [0, 4, 7, 11]),
   ("m", [0, 3, 7]), ("m7", [0, 3, 7, 10]), ("f", [0, 7]),
   ("dim", [0, 3, 6]), ("ø7", [0, 3, 6, 10]), ("dim7", [0, 3, 6, 9]),
   ("aug", [0, 4, 8])]

/-- One step of a chord progression, as stored in
`MusicMaker.setupChordProgressions`: a semitone offset from the current
root, a chord-quality suffix, and a Roman-numeral label. -/
structure ProgStep where
  degree : Nat
  quality : String
  name : String
deriving DecidableEq

/-- Embeds `MusicMaker.setupChordProgressions` (the progression catalog). -/
def chordProgressions : List (String × List ProgStep) :=
  [("I-IV-V-I",
     [⟨0, "", "I"⟩, ⟨5, "", "IV"⟩, ⟨7, "", "V"⟩, ⟨0, "", "I"⟩]),
   ("I-V-vi-IV",
     [⟨0, "", "I"⟩, ⟨7, "", "V"⟩, ⟨9, "m", "vi"⟩, ⟨5, "", "IV"⟩]),
   ("ii-V-I",
     [⟨2, "m", "ii"⟩, ⟨7, "", "V"⟩, ⟨0, "", "I"⟩]),
   ("I-vi-IV-V",
     [⟨0, "", "I"⟩, ⟨9, "m", "vi"⟩, ⟨5, "", "IV"⟩, ⟨7, "", "V"⟩]),
   ("vi-IV-I-V",
     [⟨9, "m", "vi"⟩, ⟨5, "", "IV"⟩, ⟨0, "", "I"⟩, ⟨7, "", "V"⟩]),
   ("I-IV-vi-V",
     [⟨0, "", "I"⟩, ⟨5, "", "IV"⟩, ⟨9, "m", "vi"⟩, ⟨7, "", "V"⟩]),
   ("12 Bar Blues",
     [⟨0, "", "I"⟩, ⟨0, "", "I"⟩, ⟨0, "", "I"⟩, ⟨0, "", "I"⟩,
      ⟨5, "", "IV"⟩, ⟨5, "", "IV"⟩, ⟨0, "", "I"⟩, ⟨0, "", "I"⟩,
      ⟨7, "", "V"⟩, ⟨5, "", "IV"⟩, ⟨0, "", "I"⟩, ⟨7, "", "V"⟩])]

/-- The mutable state of a `MusicMaker` instance (MusicMaker.js fields):
current root and scale type, the interval pattern installed by `setScale`,
the set of currently sounding notes (a string-keyed dictionary, embedded
as a duplicate-free list in insertion order), and the progression cursor.
The derived `currentScaleNotes` dictionary is omitted: no claim reads it. -/
structure MusicMaker where
  currentRoot : String
  currentScaleType : String
  currentPattern : List Nat
  currentlyPlayingNotes : List String
  currentProgression : Option String
  progressionStep : Nat
deriving DecidableEq

/-- The state produced by the `MusicMaker` constructor, which ends with
`setScale('C', 'Major')`. -/
def initialMusicMaker : MusicMaker :=
  { currentRoot := "C"
    currentScaleType := "Major"
    currentPattern := (List.lookup "Major" scaleTypesToPatterns).getD []
    currentlyPlayingNotes := []
    currentProgression := none
    progressionStep := 0 }

/-- Embeds `MusicMaker.addPlayingNote`: setting a key of the dictionary
`currentlyPlayingNotes` to 1 (a no-op if already present). -/
def addPlayingNote (mm : MusicMaker) (noteName : String) : MusicMaker :=
  if mm.currentlyPlayingNotes.contains noteName then mm
  else { mm with currentlyPlayingNotes := mm.currentlyPlayingNotes ++ [noteName] }

/-- Embeds `MusicMaker.releasePlayingNote`: deleting the key if present. -/
def releasePlayingNote (mm : MusicMaker) (noteName : String) : MusicMaker :=
  { mm with currentlyPlayingNotes :=
      mm.currentlyPlayingNotes.filter (fun n => n ≠ noteName) }

/-- Embeds `MusicMaker.getNoteNameFromNumberInCurrentScale`: the 1-indexed
scale-degree lookup.  `theNum = 0` makes the JavaScript index `-1 % len`
negative, so the pattern access yields `undefined` and the chain returns
`undefined` (`none` here). -/
def getNoteNameFromNumberInCurrentScale (mm : MusicMaker) (theNum : Nat) :
    Option String :=
  match getNumFromNoteName mm.currentRoot with
  | none => none
  | some rootNum =>
    if theNum = 0 then none
    else
      match mm.currentPattern.get? ((theNum - 1) % mm.currentPattern.length) with
      | none => none
      | some patternNum => getNoteNameFromNum ((rootNum + patternNum) % 12)

/-- Embeds `MusicMaker.getNoteNameFromNumRelativeToRoot` (chromatic offset
from the current root). -/
def getNoteNameFromNumRelativeToRoot (mm : MusicMaker) (theNum : Nat) :
    Option String :=
  match getNumFromNoteName mm.currentRoot with
  | none => none
  | some rootNum => getNoteNameFromNum ((rootNum + theNum) % 12)

/-- Test for the `SequencePlayer.resolveNotes` regex `^[A-G]#?$`. -/
def isNoteNameToken (s : String) : Bool :=
  match s.data with
  | [c] => 'A' ≤ c && c ≤ 'G'
  | [c, h] => ('A' ≤ c && c ≤ 'G') && h = '#'
  | _ => false

/-- Test for the `SequencePlayer.resolveNotes` regex `^\d+$`. -/
def isDigitsToken (s : String) : Bool :=
  !s.data.isEmpty && s.data.all Char.isDigit

/-- Test for the `SequencePlayer.resolveNotes` regex `^s\d+$`. -/
def isSemitoneToken (s : String) : Bool :=
  match s.data with
  | 's' :: rest => !rest.isEmpty && rest.all Char.isDigit
  | _ => false

/-- Value of JavaScript `parseInt` on an all-digit string. -/
def digitsToNat (s : String) : Nat :=
  s.data.foldl (fun acc c => acc * 10 + (c.toNat - '0'.toNat)) 0

/-- Embeds one token of `SequencePlayer.resolveNotes` (sketch.js).  The
branches follow the source order: absolute note name, bare digits, `s`
plus digits, pass-through.  The bare-digits branch of the source invokes
`this.musicMaker.getNoteForScaleDegree(...)`, a method that exists nowhere
in the repository (the engine's scale-degree lookup is named
`getNoteNameFromNumberInCurrentScale`), so at runtime it throws a
`TypeError`; that is embedded as `Except.error`. -/
def resolveNote (mm : MusicMaker) (note : String) : Except String String :=
  if isNoteNameToken note then .ok note
  else if isDigitsToken note then
    .error "TypeError: this.musicMaker.getNoteForScaleDegree is not a function"
  else if isSemitoneToken note then
    let offset := digitsToNat (note.drop 1)
    match getNumFromNoteName mm.currentRoot with
    | none => .ok "undefined"
    | some rootNum => .ok ((getNoteNameFromNum ((rootNum + offset) % 12)).getD "undefined")
  else .ok note

/-- Embeds `SequencePlayer.resolveNotes`: `notes.map(...)`, aborted by the
first thrown `TypeError`. -/
def resolveNotes (mm : MusicMaker) (notes : List String) :
    Except String (List String) :=
  notes.mapM (resolveNote mm)

/-- C1 (code bug): with the current scale C Major, the engine's
scale-degree lookup maps 1, 3, 5 to C, E, G — but the player's
`resolveNotes` does not resolve the bare-integer tokens "1", "3", "5" to
those notes: its scale-degree branch calls the nonexistent method
`getNoteForScaleDegree` and throws a `TypeError`. -/
theorem c1_degree_tokens_throw_instead_of_resolving :
    [1, 3, 5].map (getNoteNameFromNumberInCurrentScale initialMusicMaker) =
      [some "C", some "E", some "G"] ∧
    resolveNotes initialMusicMaker ["1", "3", "5"] =
      .error "TypeError: this.musicMaker.getNoteForScaleDegree is not a function" := by
  exact ⟨by decide, rfl⟩

/-- Embeds `MusicMaker.getParentMajorKey` (MusicMaker.js): `none` when the
scale type has no entry in `modeParents`; otherwise the name of pitch
class `(rootNum + offset + 12) % 12`.  An unknown root makes the
JavaScript arithmetic produce `NaN` and the final lookup `undefined`,
embedded as `none`. -/
def getParentMajorKey (root scaleType : String) : Option String :=
  match List.lookup scaleType modeParents with
  | none => none
  | some offset =>
    match getNumFromNoteName root with
    | none => none
    | some rootNum =>
      getNoteNameFromNum (((rootNum : Int) + offset + 12) % 12).toNat

/-- C5 counterexample: the claim says `parentMajorOf` returns null when the
resolved parent equals the root, in particular for Ionian at any root —
but the source has no such check: for root C and Ionian (mode offset 0) it
returns C itself, not null. -/
theorem c5_counterexample_ionian_returns_root :
    getParentMajorKey "C" "Ionian" = some "C" := by decide

/-- C5 (amended): `getParentMajorKey` returns null exactly when the scale
type has no registered mode relation; otherwise — for every valid root —
it returns the name of pitch class `(root_index + modeOffset) mod 12` even
when that parent equals the root (Ionian, offset 0, yields the root
itself).  The seven diatonic modes are registered at offsets
0, -2, -4, -5, -7, -9, -11. -/
theorem c5_parent_major_key :
    (∀ root scaleType, scaleType ∉ modeParents.map Prod.fst →
       getParentMajorKey root scaleType = none) ∧
    (∀ root, root ∈ noteNames → ∀ p ∈ modeParents,
       ∃ rootNum, getNumFromNoteName root = some rootNum ∧
         getParentMajorKey root p.1 =
           getNoteNameFromNum (((rootNum : Int) + p.2 + 12) % 12).toNat ∧
         (getParentMajorKey root p.1).isSome = true) ∧
    (∀ root, root ∈ noteNames → getParentMajorKey root "Ionian" = some root) ∧
    modeParents.map Prod.snd = [0, -2, -4, -5, -7, -9, -11] := by
  refine ⟨?_, ?_, ?_, by decide⟩
  · intro root scaleType h
    unfold getParentMajorKey
    rw [lookup_eq_none_of_not_mem_keys modeParents scaleType h]
  · intro root hroot
    fin_cases hroot <;> decide
  · intro root hroot
    fin_cases hroot <;> decide

/-- C5 witness: concrete instances — an unregistered scale type ("Major")
gives null, Dorian at D resolves to C, and Ionian at G# returns G#. -/
theorem c5_witness :
    getParentMajorKey "C" "Major" = none ∧
    getParentMajorKey "D" "Dorian" = some "C" ∧
    getParentMajorKey "G#" "Ionian" = some "G#" := by
  obtain ⟨h1, h2, h3, _⟩ := c5_parent_major_key
  refine ⟨h1 "C" "Major" (by decide), ?_, h3 "G#" (by decide)⟩
  obtain ⟨rn, hrn, heq, _⟩ := h2 "D" (by decide) ("Dorian", -2) (by decide)
  rw [heq]
  have : rn = 5 := by
    have := hrn
    simp [getNumFromNoteName, notesToNumbers, List.lookup] at this
    omega
  subst this
  decide

/-- Embeds the inner note computation of
`MusicMaker.getCurrentlyPlayingChordsFromNotes`: the absolute note names a
chord with the given root index and interval pattern requires, in pattern
order. -/
def chordPatternNotes (rootNum : Nat) (pattern : List Nat) : List String :=
  pattern.map (fun rel => (getNoteNameFromNum ((rootNum + rel) % 12)).getD "undefined")

/-- Embeds `MusicMaker.getCurrentlyPlayingChordsFromNotes` (MusicMaker.js):
every sounding note is tried as a chord root against every catalog
pattern; a match is recorded as key `root ++ suffix` with the required
note list.  A root that is not a valid note name contributes nothing in
the source (each membership test of `undefined` fails), embedded as the
`none` branch producing `[]`. -/
def getCurrentlyPlayingChordsFromNotes (currentNotes : List String) :
    List (String × List String) :=
  currentNotes.flatMap (fun potentialRoot =>
    (getNumFromNoteName potentialRoot).elim []
      (fun potentialRootNum =>
        chordTypesToNoteLists.filterMap (fun entry =>
          let potentialChordNotes := chordPatternNotes potentialRootNum entry.2
          if potentialChordNotes.all (fun n => currentNotes.contains n) then
            some (potentialRoot ++ entry.1, potentialChordNotes)
          else none)))

/-- C6: chord detection returns exactly the pairs `(root ++ suffix, notes)`
with `root` a sounding valid note name, `(suffix, pattern)` a catalog
entry, `notes` the required absolute notes in pattern order, and every
required note sounding; and on the concrete sets of the claim it yields
exactly C major and C fifth for C-E-G (no chord needing D, F or B), and
contains C7 for C-E-G-A#. -/
theorem c6_chord_detection_characterization :
    (∀ (s : List String) (key : String) (ns : List String),
       (key, ns) ∈ getCurrentlyPlayingChordsFromNotes s ↔
       ∃ root rootNum suffix pattern,
         root ∈ s ∧
         getNumFromNoteName root = some rootNum ∧
         (suffix, pattern) ∈ chordTypesToNoteLists ∧
         key = root ++ suffix ∧
         ns = chordPatternNotes rootNum pattern ∧
         ∀ n ∈ ns, n ∈ s) ∧
    getCurrentlyPlayingChordsFromNotes ["C", "E", "G"] =
      [("C", ["C", "E", "G"]), ("Cf", ["C", "G"])] ∧
    ("C7", ["C", "E", "G", "A#"]) ∈
      getCurrentlyPlayingChordsFromNotes ["C", "E", "G", "A#"] := by
  refine ⟨?_, by decide, by decide⟩
  intro s key ns
  constructor
  · intro h
    rw [getCurrentlyPlayingChordsFromNotes, List.mem_flatMap] at h
    obtain ⟨root, hroot, hmem⟩ := h
    cases hnum : getNumFromNoteName root with
    | none => rw [hnum] at hmem; simp [Option.elim] at hmem
    | some rootNum =>
      rw [hnum] at hmem
      simp only [Option.elim] at hmem
      rw [List.mem_filterMap] at hmem
      obtain ⟨entry, hentry, heq⟩ := hmem
      by_cases hall : (chordPatternNotes rootNum entry.2).all
          (fun n => s.contains n)
      · rw [if_pos hall] at heq
        obtain ⟨hk, hn⟩ := Prod.mk.injEq .. ▸ Option.some.injEq .. ▸ heq
        refine ⟨root, rootNum, entry.1, entry.2, hroot, hnum, by simpa using hentry,
          hk.symm, hn.symm, ?_⟩
        intro n hn'
        have := List.all_eq_true.mp hall n (hn ▸ hn')
        simpa [List.elem_iff] using this
      · rw [if_neg hall] at heq
        exact absurd heq (by simp)
  · rintro ⟨root, rootNum, suffix, pattern, hroot, hnum, hcat, rfl, rfl, hall⟩
    rw [getCurrentlyPlayingChordsFromNotes, List.mem_flatMap]
    refine ⟨root, hroot, ?_⟩
    rw [hnum]
    simp only [Option.elim]
    rw [List.mem_filterMap]
    refine ⟨(suffix, pattern), hcat, ?_⟩
    rw [if_pos ?_]
    exact List.all_eq_true.mpr (fun n hn => by
      simpa [List.elem_iff] using hall n hn)

/-- C6 witness: the characterization instantiated at the C-E-G-A# set and
the C7 entry. -/
theorem c6_witness :
    ("C7", ["C", "E", "G", "A#"]) ∈
      getCurrentlyPlayingChordsFromNotes ["C", "E", "G", "A#"] ∧
    (("C7", ["C", "E", "G", "A#"]) ∈
        getCurrentlyPlayingChordsFromNotes ["C", "E", "G", "A#"] ↔
      ∃ root rootNum suffix pattern,
        root ∈ ["C", "E", "G", "A#"] ∧
        getNumFromNoteName root = some rootNum ∧
        (suffix, pattern) ∈ chordTypesToNoteLists ∧
        "C7" = root ++ suffix ∧
        ["C", "E", "G", "A#"] = chordPatternNotes rootNum pattern ∧
        ∀ n ∈ ["C", "E", "G", "A#"], n ∈ ["C", "E", "G", "A#"]) := by
  obtain ⟨hchar, _, hmem⟩ := c6_chord_detection_characterization
  exact ⟨hmem, hchar ["C", "E", "G", "A#"] "C7" ["C", "E", "G", "A#"]⟩

/-- Whitespace as trimmed by JavaScript `String.prototype.trim` (the ASCII
cases, which cover every string this embedding meets). -/
def isSpaceChar (c : Char) : Bool :=
  c = ' ' || c = '\t' || c = '\n' || c = '\r'

/-- Embeds JavaScript `trim()`: strip leading and trailing whitespace. -/
def jsTrim (s : String) : String :=
  ⟨(((s.data.dropWhile isSpaceChar).reverse).dropWhile isSpaceChar).reverse⟩

/-- Worker for `jsSplit`, accumulating the current field in reverse. -/
def jsSplitAux (c : Char) : List Char → List Char → List String
  | [], acc => [⟨acc.reverse⟩]
  | x :: xs, acc =>
    if x = c then ⟨acc.reverse⟩ :: jsSplitAux c xs []
    else jsSplitAux c xs (x :: acc)

/-- Embeds JavaScript `split(sep)` for a one-character separator (the only
kind `fromCompact` uses): splitting the empty string gives `[""]`,
adjacent separators give empty fields. -/
def jsSplit (c : Char) (s : String) : List String :=
  jsSplitAux c s.data []

/-- Value of JavaScript `parseInt` on a general string: skip leading
whitespace, read an optional sign and a maximal digit prefix; `NaN`
(embedded as `none`) when no digit is found. -/
def parseIntJS (s : String) : Option Int :=
  let signed : Int × List Char :=
    match (jsTrim s).data with
    | '-' :: r => (-1, r)
    | '+' :: r => (1, r)
    | r => (1, r)
  let digits := signed.2.takeWhile Char.isDigit
  if digits.isEmpty then none
  else some (signed.1 *
    (digits.foldl (fun acc c => acc * 10 + (c.toNat - '0'.toNat)) 0 : Nat))

/-- The configuration patch of a sequence (`SequencePlayer.fromCompact`,
sketch.js): every field optional, left unset (`none`) when the positional
config item is absent or empty. -/
structure SeqConfig where
  temperament : Option String := none
  root : Option String := none
  scale : Option String := none
  fifthsView : Option Bool := none
  chromaticColors : Option Bool := none
deriving DecidableEq

/-- One event of a sequence.  `sustain` is `none` when the source object
has no `sustain` key; `some none` embeds a `sustain` key holding `NaN`
(a non-numeric second timing field); `some (some k)` a numeric value. -/
structure SeqEvent where
  notes : List String
  duration : Int
  sustain : Option (Option Int) := none
deriving DecidableEq

/-- A parsed sequence: configuration patch plus ordered events. -/
structure Sequence where
  config : SeqConfig
  events : List SeqEvent
deriving DecidableEq

/-- Embeds the timing computation of `SequencePlayer.fromCompact`, which
the source performs once per event from the third `|`-section: duration is
`parseInt(timingParts[0]) || 1500` (so `NaN` and 0 both fall back to
1500), sustain is set only when `timingParts[1]` is a nonempty string. -/
def compactTiming (parts : List String) : Int × Option (Option Int) :=
  match parts.get? 2 with
  | none => (1500, none)
  | some p2 =>
    if jsTrim p2 = "" then (1500, none)
    else
      let timingParts := jsSplit ',' (jsTrim p2)
      let duration :=
        match parseIntJS (timingParts.getD 0 "") with
        | none => 1500
        | some n => if n = 0 then 1500 else n
      let sustain : Option (Option Int) :=
        match timingParts.get? 1 with
        | some s => if s ≠ "" then some (parseIntJS s) else none
        | none => none
      (duration, sustain)

/-- Embeds the config section of `SequencePlayer.fromCompact`: positional,
comma-separated, each item trimmed; an absent or empty item leaves the
field unset; items 4 and 5 compare against the literal "true". -/
def compactConfig (parts : List String) : SeqConfig :=
  if jsTrim (parts.getD 0 "") ≠ "" then
    let configItems := (jsSplit ',' (jsTrim (parts.getD 0 ""))).map jsTrim
    { temperament :=
        match configItems.get? 0 with
        | some s => if s ≠ "" then some s else none
        | none => none
      root :=
        match configItems.get? 1 with
        | some s => if s ≠ "" then some s else none
        | none => none
      scale :=
        match configItems.get? 2 with
        | some s => if s ≠ "" then some s else none
        | none => none
      fifthsView := (configItems.get? 3).map (fun s => s == "true")
      chromaticColors := (configItems.get? 4).map (fun s => s == "true") }
  else {}

/-- Embeds the events section of `SequencePlayer.fromCompact`: events are
`;`-separated, notes `+`-separated and trimmed, empty event strings are
skipped, and the timing section (`compactTiming`) is re-read from the same
split parts for every event, as in the source loop. -/
def compactEvents (parts : List String) : List SeqEvent :=
  match parts.get? 1 with
  | none => []
  | some p1 =>
    if jsTrim p1 = "" then []
    else
      (jsSplit ';' (jsTrim p1)).filterMap (fun evRaw =>
        if jsTrim evRaw = "" then none
        else
          some { notes := ((jsSplit '+' (jsTrim evRaw)).map jsTrim).filter (· ≠ "")
                 duration := (compactTiming parts).1
                 sustain := (compactTiming parts).2 })

/-- Embeds `SequencePlayer.fromCompact` (sketch.js): split on `|`, then
parse the config and events sections from the same parts. -/
def fromCompact (str : String) : Sequence :=
  { config := compactConfig (jsSplit '|' str)
    events := compactEvents (jsSplit '|' str) }

/-- C7: parsing the compact string
"Pythagorean,G#,Major|C+E+G;E+G+B|1000,800" yields the temperament, root
and scale of the claim and exactly two events — the first with notes
C, E, G — and, since the single timing section is applied to every parsed
event (of any compact string), both events carry duration 1000 and
sustain 800. -/
theorem c7_compact_parse :
    fromCompact "Pythagorean,G#,Major|C+E+G;E+G+B|1000,800" =
      { config := { temperament := some "Pythagorean", root := some "G#",
                    scale := some "Major" },
        events := [{ notes := ["C", "E", "G"], duration := 1000,
                     sustain := some (some 800) },
                   { notes := ["E", "G", "B"], duration := 1000,
                     sustain := some (some 800) }] } ∧
    (∀ (s : String), ∀ e1 ∈ (fromCompact s).events, ∀ e2 ∈ (fromCompact s).events,
       e1.duration = e2.duration ∧ e1.sustain = e2.sustain) := by
  constructor
  · decide
  · intro s e1 h1 e2 h2
    have key : ∀ e ∈ (fromCompact s).events,
        e.duration = (compactTiming (jsSplit '|' s)).1 ∧
        e.sustain = (compactTiming (jsSplit '|' s)).2 := by
      intro e he
      have he' : e ∈ compactEvents (jsSplit '|' s) := he
      rw [compactEvents] at he'
      split at he'
      · exact absurd he' (by simp)
      · split at he'
        · exact absurd he' (by simp)
        · rw [List.mem_filterMap] at he'
          obtain ⟨raw, _, hsome⟩ := he'
          split at hsome
          · exact absurd hsome (by simp)
          · obtain rfl := Option.some.injEq .. ▸ hsome
            exact ⟨rfl, rfl⟩
    obtain ⟨hd1, hs1⟩ := key e1 h1
    obtain ⟨hd2, hs2⟩ := key e2 h2
    exact ⟨hd1.trans hd2.symm, hs1.trans hs2.symm⟩

/-- C7 witness: the uniformity part instantiated on the claim's string and
its two parsed events. -/
theorem c7_witness :
    (fromCompact "Pythagorean,G#,Major|C+E+G;E+G+B|1000,800").events.length = 2 ∧
    ∀ e1 ∈ (fromCompact "Pythagorean,G#,Major|C+E+G;E+G+B|1000,800").events,
      ∀ e2 ∈ (fromCompact "Pythagorean,G#,Major|C+E+G;E+G+B|1000,800").events,
        e1.duration = e2.duration ∧ e1.sustain = e2.sustain := by
  exact ⟨by decide, c7_compact_parse.2 "Pythagorean,G#,Major|C+E+G;E+G+B|1000,800"⟩

/-- The record returned by `MusicMaker.getCurrentProgressionChord`.  The
chord root is `Option String` because an unknown current root makes the
JavaScript arithmetic yield `undefined`; `displayName` stringifies that
case as "undefined", as a template literal does. -/
structure ProgressionChord where
  root : Option String
  quality : String
  name : String
  step : Nat
  total : Nat
  displayName : String
deriving DecidableEq

/-- Embeds `MusicMaker.getCurrentProgressionChord` (MusicMaker.js): null
when no progression is selected or its name is not in the catalog;
a `TypeError` when the step index is out of range (the source reads
`step.degree` off `undefined`); otherwise the chord built from the stored
step — semitone offset from the current root, stored quality and label. -/
def getCurrentProgressionChord (mm : MusicMaker) :
    Except String (Option ProgressionChord) :=
  match mm.currentProgression with
  | none => .ok none
  | some pname =>
    match List.lookup pname chordProgressions with
    | none => .ok none
    | some prog =>
      match prog.get? mm.progressionStep with
      | none => .error "TypeError: cannot read properties of undefined"
      | some st =>
        let chordRoot : Option String :=
          match getNumFromNoteName mm.currentRoot with
          | none => none
          | some rootNum => getNoteNameFromNum ((rootNum + st.degree) % 12)
        .ok (some
          { root := chordRoot
            quality := st.quality
            name := st.name
            step := mm.progressionStep + 1
            total := prog.length
            displayName :=
              (chordRoot.getD "undefined") ++ st.quality ++ " (" ++ st.name ++ ")" })

/-- Embeds `MusicMaker.setProgression` (MusicMaker.js).  JavaScript
reaches the reset branch when `name` is `'None'` or falsy (`null`,
`undefined` or the empty string); with names embedded as `String`, the
falsy case is the empty string.  Returns the pair (returned value, new
state). -/
def setProgression (mm : MusicMaker) (name : String) :
    Except String (Option ProgressionChord) × MusicMaker :=
  if name = "None" ∨ name = "" then
    (.ok none, { mm with currentProgression := none, progressionStep := 0 })
  else
    let mm' := { mm with currentProgression := some name, progressionStep := 0 }
    (getCurrentProgressionChord mm', mm')

/-- Embeds `MusicMaker.nextProgressionStep`: null when idle; a `TypeError`
when the stored progression name is not a catalog key (the source reads
`.length` off `undefined`); otherwise advance the cursor modulo the step
count and return the current chord. -/
def nextProgressionStep (mm : MusicMaker) :
    Except String (Option ProgressionChord × MusicMaker) :=
  match mm.currentProgression with
  | none => .ok (none, mm)
  | some pname =>
    match List.lookup pname chordProgressions with
    | none => .error "TypeError: cannot read properties of undefined (reading length)"
    | some prog =>
      let mm' := { mm with progressionStep := (mm.progressionStep + 1) % prog.length }
      match getCurrentProgressionChord mm' with
      | .error e => .error e
      | .ok c => .ok (c, mm')

/-- Embeds `MusicMaker.prevProgressionStep`: as `nextProgressionStep` but
stepping back, `(step - 1 + length) % length`. -/
def prevProgressionStep (mm : MusicMaker) :
    Except String (Option ProgressionChord × MusicMaker) :=
  match mm.currentProgression with
  | none => .ok (none, mm)
  | some pname =>
    match List.lookup pname chordProgressions with
    | none => .error "TypeError: cannot read properties of undefined (reading length)"
    | some prog =>
      let mm' := { mm with progressionStep :=
        (mm.progressionStep + prog.length - 1) % prog.length }
      match getCurrentProgressionChord mm' with
      | .error e => .error e
      | .ok c => .ok (c, mm')

/-- Modelled from the spec: `ScaleEngine.chordQualityForDegree` (§4.3),
an operation the source repository does not contain.  For a pattern
shorter than 5 return ""; otherwise take the pattern offsets at indices
`d-1`, `(d+1) mod len`, `(d+3) mod len`, form the third and fifth
intervals relative to the degree's own offset (adding 12 to a negative
result), and classify: third 3 and fifth 6 → "dim", third 4 and fifth 8 →
"aug", third 3 → "m", otherwise "". -/
def chordQualityForDegreeSpec (pattern : List Nat) (d : Nat) : String :=
  if pattern.length < 5 then ""
  else
    let len := pattern.length
    let rootOff : Int := pattern.getD ((d - 1) % len) 0
    let thirdOff : Int := pattern.getD ((d + 1) % len) 0
    let fifthOff : Int := pattern.getD ((d + 3) % len) 0
    let third := if thirdOff - rootOff < 0 then thirdOff - rootOff + 12
                 else thirdOff - rootOff
    let fifth := if fifthOff - rootOff < 0 then fifthOff - rootOff + 12
                 else fifthOff - rootOff
    if third = 3 && fifth = 6 then "dim"
    else if third = 4 && fifth = 8 then "aug"
    else if third = 3 then "m"
    else ""

/-- C3 counterexample: on C Minor (live scale state), the diatonic triad
on degree 1 is minor — the spec's `chordQualityForDegree` returns "m" —
yet the current progression chord for I-IV-V-I at step 0 carries quality
"", the constant stored in the progression catalog: the quality is not
obtained from any scale-degree classification of the live scale. -/
theorem c3_counterexample_quality_ignores_live_scale :
    chordQualityForDegreeSpec
      ((List.lookup "Minor" scaleTypesToPatterns).getD []) 1 = "m" ∧
    (getCurrentProgressionChord
      { currentRoot := "C"
        currentScaleType := "Minor"
        currentPattern := (List.lookup "Minor" scaleTypesToPatterns).getD []
        currentlyPlayingNotes := []
        currentProgression := some "I-IV-V-I"
        progressionStep := 0 }).map (Option.map ProgressionChord.quality) =
      .ok (some "") := by
  exact ⟨by decide, rfl⟩

/-- C3 (amended): the source has no `chordQualityForDegree`; a progression
chord's quality is the constant stored with its step in the progression
catalog — always "" or "m", never "dim" or "aug" — and
`getCurrentProgressionChord` is independent of the live scale type and
pattern; on C Major, the first step of ii-V-I yields root D with the
stored quality "m". -/
theorem c3_progression_quality_is_stored_constant :
    (∀ (mm : MusicMaker) (st : String) (pat : List Nat),
       getCurrentProgressionChord
         { mm with currentScaleType := st, currentPattern := pat } =
       getCurrentProgressionChord mm) ∧
    (∀ p ∈ chordProgressions, ∀ st ∈ p.2, st.quality = "" ∨ st.quality = "m") ∧
    (getCurrentProgressionChord
      { initialMusicMaker with currentProgression := some "ii-V-I" }).map
        (Option.map (fun c => (c.root, c.quality))) =
      .ok (some (some "D", "m")) := by
  refine ⟨?_, by decide, rfl⟩
  intro mm st pat
  rfl

/-- C3 witness: the scale-independence and catalog parts instantiated —
the I-IV-V-I chord at step 0 is the same record on C Major and on C Minor,
and the stored quality of the first ii-V-I step is "m". -/
theorem c3_witness :
    getCurrentProgressionChord
      { initialMusicMaker with
          currentScaleType := "Minor"
          currentPattern := (List.lookup "Minor" scaleTypesToPatterns).getD []
          currentProgression := some "I-IV-V-I" } =
      getCurrentProgressionChord
        { initialMusicMaker with currentProgression := some "I-IV-V-I" } ∧
    ((⟨2, "m", "ii"⟩ : ProgStep).quality = "" ∨
      (⟨2, "m", "ii"⟩ : ProgStep).quality = "m") := by
  refine ⟨?_, ?_⟩
  · exact c3_progression_quality_is_stored_constant.1
      { initialMusicMaker with currentProgression := some "I-IV-V-I" }
      "Minor" ((List.lookup "Minor" scaleTypesToPatterns).getD [])
  · exact c3_progression_quality_is_stored_constant.2.1
      ("ii-V-I", [⟨2, "m", "ii"⟩, ⟨7, "", "V"⟩, ⟨0, "", "I"⟩]) (by decide)
      ⟨2, "m", "ii"⟩ (by decide)

/-- C10 counterexample: the claim quantifies over every non-null name
other than 'None', but for the non-null empty string — not a catalog key —
`setProgression` does not store it: the falsy check sends it to the reset
branch, and a following `nextProgressionStep` returns null instead of
failing. -/
theorem c10_counterexample_empty_string :
    ("" : String) ≠ "None" ∧
    List.lookup "" chordProgressions = none ∧
    (setProgression initialMusicMaker "").2.currentProgression = none ∧
    nextProgressionStep (setProgression initialMusicMaker "").2 =
      .ok (none, (setProgression initialMusicMaker "").2) := by
  exact ⟨by decide, by decide, by decide, rfl⟩

/-- C10 (amended): for every non-empty name other than 'None' that is not
a catalog key, `setProgression` stores the name with step 0 and returns
null, `getCurrentProgressionChord` then returns null (as in the idle
state), and `nextProgressionStep` / `prevProgressionStep` fail with a
runtime `TypeError` (reading the length of an undefined progression)
rather than returning null or wrapping. -/
theorem c10_set_progression_unvalidated :
    ∀ (mm : MusicMaker) (name : String),
      name ≠ "None" → name ≠ "" → List.lookup name chordProgressions = none →
      (setProgression mm name).2.currentProgression = some name ∧
      (setProgression mm name).2.progressionStep = 0 ∧
      (setProgression mm name).1 = .ok none ∧
      getCurrentProgressionChord (setProgression mm name).2 = .ok none ∧
      (∃ e, nextProgressionStep (setProgression mm name).2 = .error e) ∧
      (∃ e, prevProgressionStep (setProgression mm name).2 = .error e) := by
  intro mm name hnone hempty hcat
  have hcond : ¬(name = "None" ∨ name = "") := by
    rintro (h | h) <;> [exact hnone h; exact hempty h]
  rw [setProgression, if_neg hcond]
  refine ⟨rfl, rfl, ?_, ?_, ?_, ?_⟩
  · simp only [getCurrentProgressionChord, hcat]
  · simp only [getCurrentProgressionChord, hcat]
  · exact ⟨"TypeError: cannot read properties of undefined (reading length)",
      by simp only [nextProgressionStep, hcat]⟩
  · exact ⟨"TypeError: cannot read properties of undefined (reading length)",
      by simp only [prevProgressionStep, hcat]⟩

/-- C10 witness: the amended theorem applied to the unknown name "Bogus"
on the initial state. -/
theorem c10_witness :
    (setProgression initialMusicMaker "Bogus").2.currentProgression =
      some "Bogus" ∧
    (setProgression initialMusicMaker "Bogus").2.progressionStep = 0 ∧
    (setProgression initialMusicMaker "Bogus").1 = .ok none ∧
    getCurrentProgressionChord (setProgression initialMusicMaker "Bogus").2 =
      .ok none ∧
    (∃ e, nextProgressionStep (setProgression initialMusicMaker "Bogus").2 =
      .error e) ∧
    (∃ e, prevProgressionStep (setProgression initialMusicMaker "Bogus").2 =
      .error e) :=
  c10_set_progression_unvalidated initialMusicMaker "Bogus"
    (by decide) (by decide) (by decide)

/-- The callback of a timer scheduled by `SequencePlayer.playNextEvent`:
either the deferred turn-off of the event's notes (scheduled at `sustain`
time-units) or the deferred advance to the next event (scheduled at
`duration` time-units). -/
inductive TimerAction where
  | release (notes : List String)
  | advance
deriving DecidableEq

/-- A pending `setTimeout` callback: the id the browser returned and the
callback.  The numeric delays are irrelevant to cancellation and are not
tracked. -/
structure Timer where
  id : Nat
  action : TimerAction
deriving DecidableEq

/-- The state of a `SequencePlayer` (sketch.js) together with its
scheduler environment: `pending` holds the not-yet-fired, not-cancelled
`setTimeout` callbacks (a timer still pending fires once its delay
elapses; `clearTimeout` removes it), and `nextId` the next fresh timer id
(browser ids are positive).  `timeoutId` is the player's own field, which
the source assigns only from the second `setTimeout` of `playNextEvent`. -/
structure SequencePlayer where
  musicMaker : MusicMaker
  isPlaying : Bool
  currentSequence : Option Sequence
  eventIndex : Nat
  timeoutId : Option Nat
  pending : List Timer
  nextId : Nat
deriving DecidableEq

/-- Embeds `SequencePlayer.playNextEvent` (sketch.js): return unchanged
when not playing or without a sequence; past the last event mark playback
finished; otherwise resolve the event's notes (which can throw, see
`resolveNote`), turn them on, schedule the deferred turn-off — its timer
id is discarded by the source — then advance `eventIndex` and schedule the
deferred advance, storing only that second id in `timeoutId`. -/
def SequencePlayer.playNextEvent (sp : SequencePlayer) :
    Except String SequencePlayer :=
  if !sp.isPlaying then .ok sp
  else match sp.currentSequence with
  | none => .ok sp
  | some seq =>
    match seq.events.get? sp.eventIndex with
    | none => .ok { sp with isPlaying := false, currentSequence := none }
    | some event =>
      match resolveNotes sp.musicMaker event.notes with
      | .error e => .error e
      | .ok notes =>
        .ok { sp with
          musicMaker := notes.foldl addPlayingNote sp.musicMaker
          pending := sp.pending ++
            [⟨sp.nextId, .release notes⟩, ⟨sp.nextId + 1, .advance⟩]
          eventIndex := sp.eventIndex + 1
          timeoutId := some (sp.nextId + 1)
          nextId := sp.nextId + 2 }

/-- Embeds `SequencePlayer.stop` (sketch.js): clear the playing flag;
`clearTimeout(this.timeoutId)` cancels the one timer whose id is stored
(the deferred advance), when one is; release every note of the shared
`currentlyPlayingNotes` dictionary, whoever added it; reset the sequence
and event cursor. -/
def SequencePlayer.stop (sp : SequencePlayer) : SequencePlayer :=
  { sp with
    isPlaying := false
    timeoutId := none
    pending :=
      match sp.timeoutId with
      | some tid => sp.pending.filter (fun t => t.id ≠ tid)
      | none => sp.pending
    musicMaker :=
      sp.musicMaker.currentlyPlayingNotes.foldl releasePlayingNote sp.musicMaker
    currentSequence := none
    eventIndex := 0 }

/-- Helper: releasing each note of a worklist removes from the sounding
set exactly the worklist's members. -/
theorem foldl_release_playing_notes (todo : List String) (m : MusicMaker) :
    (todo.foldl releasePlayingNote m).currentlyPlayingNotes =
      m.currentlyPlayingNotes.filter (fun n => !todo.contains n) := by
  induction todo generalizing m with
  | nil => simp
  | cons a as ih =>
    rw [List.foldl_cons, ih, releasePlayingNote]
    simp only [List.filter_filter]
    congr 1
    funext n
    by_cases h : n = a <;> simp [h]

/-- Helper: `stop` empties the sounding-note set completely. -/
theorem stop_clears_all_playing_notes (sp : SequencePlayer) :
    (SequencePlayer.stop sp).musicMaker.currentlyPlayingNotes = [] := by
  show (sp.musicMaker.currentlyPlayingNotes.foldl releasePlayingNote
      sp.musicMaker).currentlyPlayingNotes = []
  rw [foldl_release_playing_notes]
  rw [List.filter_eq_nil_iff]
  intro n hn
  simpa using hn

/-- A player state in which the only sounding note, D, was added by
another input source (the keyboard handler), the player itself idle with
nothing of its own to retract. -/
def c2Player : SequencePlayer :=
  { musicMaker := { initialMusicMaker with currentlyPlayingNotes := ["D"] }
    isPlaying := false
    currentSequence := none
    eventIndex := 0
    timeoutId := none
    pending := []
    nextId := 1 }

/-- C2 counterexample: the note D is sounding and was not added by the
player, yet after `stop()` its entry is gone — `stop` does not restrict
itself to the entries the player added. -/
theorem c2_counterexample_stop_clears_foreign_note :
    "D" ∈ c2Player.musicMaker.currentlyPlayingNotes ∧
    (SequencePlayer.stop c2Player).musicMaker.currentlyPlayingNotes = [] := by
  exact ⟨by decide, by decide⟩

/-- C2 (amended): `stop()` releases every entry of the sounding-note set —
its own and those added by the keyboard, mouse or progression playback
alike — leaving the set empty; the source tracks no provenance. -/
theorem c2_stop_releases_every_note :
    ∀ sp : SequencePlayer,
      (SequencePlayer.stop sp).musicMaker.currentlyPlayingNotes = [] :=
  stop_clears_all_playing_notes

/-- A playing player about to perform its first (and only) event. -/
def c4Player : SequencePlayer :=
  { musicMaker := initialMusicMaker
    isPlaying := true
    currentSequence := some
      { config := {}
        events := [{ notes := ["C", "E", "G"], duration := 1000,
                     sustain := some (some 800) }] }
    eventIndex := 0
    timeoutId := none
    pending := []
    nextId := 1 }

/-- C4 counterexample: after the event is started and `stop()` is called,
the deferred note turn-off scheduled at sustain time (timer id 1) is
still pending — only the deferred advance (timer id 2, the stored
`timeoutId`) was cancelled — so the turn-off callback does fire later. -/
theorem c4_counterexample_release_timer_survives_stop :
    c4Player.playNextEvent.map (fun sp => (SequencePlayer.stop sp).pending) =
      .ok [⟨1, .release ["C", "E", "G"]⟩] := rfl

/-- C4 (amended): when `playNextEvent` starts an event, a following
`stop()` cancels only the deferred advance-to-next-event callback (the
timer id stored in `timeoutId`); the deferred turn-off scheduled at
sustain time remains pending and still fires after `stop()` returns. -/
theorem c4_stop_cancels_only_advance_timer :
    ∀ (sp : SequencePlayer) (seq : Sequence) (event : SeqEvent)
      (notes : List String) (sp' : SequencePlayer),
      sp.isPlaying = true →
      sp.currentSequence = some seq →
      seq.events.get? sp.eventIndex = some event →
      resolveNotes sp.musicMaker event.notes = .ok notes →
      sp.playNextEvent = .ok sp' →
      (⟨sp.nextId, .release notes⟩ : Timer) ∈ (SequencePlayer.stop sp').pending ∧
      (∀ t ∈ (SequencePlayer.stop sp').pending, t.id ≠ sp.nextId + 1) := by
  intro sp seq event notes sp' hplay hseq hev hres hnext
  rw [SequencePlayer.playNextEvent, hplay] at hnext
  simp only [Bool.not_true, Bool.false_eq_true, if_false] at hnext
  rw [hseq] at hnext
  simp only at hnext
  rw [hev] at hnext
  simp only at hnext
  rw [hres] at hnext
  simp only [Except.ok.injEq] at hnext
  subst hnext
  constructor
  · show (⟨sp.nextId, .release notes⟩ : Timer) ∈
      (sp.pending ++
        ([⟨sp.nextId, .release notes⟩,
          ⟨sp.nextId + 1, .advance⟩] : List Timer)).filter
        (fun t => t.id ≠ sp.nextId + 1)
    rw [List.mem_filter]
    refine ⟨List.mem_append_right _ (by simp), by simp⟩
  · intro t ht
    have ht' : t ∈ (sp.pending ++
        ([⟨sp.nextId, .release notes⟩,
          ⟨sp.nextId + 1, .advance⟩] : List Timer)).filter
        (fun t => t.id ≠ sp.nextId + 1) := ht
    rw [List.mem_filter] at ht'
    simpa using ht'.2

/-- C4 witness: the amended theorem applied to the concrete player
`c4Player` and its one event. -/
theorem c4_witness :
    (⟨1, .release ["C", "E", "G"]⟩ : Timer) ∈
      (SequencePlayer.stop
        { c4Player with
          musicMaker := ["C", "E", "G"].foldl addPlayingNote initialMusicMaker
          pending := [⟨1, .release ["C", "E", "G"]⟩, ⟨2, .advance⟩]
          eventIndex := 1
          timeoutId := some 2
          nextId := 3 }).pending ∧
    (∀ t ∈ (SequencePlayer.stop
        { c4Player with
          musicMaker := ["C", "E", "G"].foldl addPlayingNote initialMusicMaker
          pending := [⟨1, .release ["C", "E", "G"]⟩, ⟨2, .advance⟩]
          eventIndex := 1
          timeoutId := some 2
          nextId := 3 }).pending, t.id ≠ 2) := by
  exact c4_stop_cancels_only_advance_timer c4Player
    { config := {}
      events := [{ notes := ["C", "E", "G"], duration := 1000,
                   sustain := some (some 800) }] }
    { notes := ["C", "E", "G"], duration := 1000, sustain := some (some 800) }
    ["C", "E", "G"] _ rfl rfl rfl rfl rfl

end MusicWheel
